import Mathlib

/-!
Verification development for the intent-routing and tool-orchestration core of
the Open-LLM-VTuber travel-assistant agent.

The Python sources under `src/open_llm_vtuber/agent/agents/` are shallowly
embedded: dictionaries become association lists over a JSON-like `Value` type,
`datetime.now()` becomes an explicit `Date` parameter, external tool bodies
become an explicit environment parameter, and Python exceptions become
`Except`/sum types.  The regular expressions used by the intent detectors are
embedded via a small executable backtracking matcher (`RE`, `reCands`) whose
candidate ordering mirrors Python `re`'s leftmost/greedy-first preference.
-/

namespace VTuber

/-- JSON-like values, the embedding of Python dict/list/str/int payloads. -/
inductive Value where
  | str : String → Value
  | num : Int → Value
  | vbool : Bool → Value
  | vnull : Value
  | list : List Value → Value
  | obj : List (String × Value) → Value

/-- Lookup in an association list, the embedding of Python dict indexing. -/
def alistGet (kvs : List (String × Value)) (k : String) : Option Value :=
  match kvs.find? (fun kv => kv.1 == k) with
  | some kv => some kv.2
  | none => none

/-- Membership test, the embedding of Python's `k in d`. -/
def alistHas (kvs : List (String × Value)) (k : String) : Bool :=
  (alistGet kvs k).isSome

/-- Python's `\d` character class (restricted to ASCII digits, which is all the
embedded patterns ever see in the extracted groups). -/
def isDigitB (c : Char) : Bool := '0' ≤ c ∧ c ≤ '9'

/-- Python's `\s` character class (the ASCII whitespace characters). -/
def isSpaceB (c : Char) : Bool :=
  c = ' ' ∨ c = '\t' ∨ c = '\n' ∨ c = '\r' ∨ c = '\x0b' ∨ c = '\x0c'

/-- Regular-expression abstract syntax for the patterns appearing in the
intent detectors.  `alt` is ordered (left preferred), `rep`/`star`/`opt`
carry a greediness flag, matching Python `re` semantics. -/
inductive RE where
  | eps : RE
  | lit : Char → RE
  | cls : (Char → Bool) → RE
  | seq : RE → RE → RE
  | alt : RE → RE → RE
  | rep : RE → Nat → Nat → Bool → RE
  | star : RE → Bool → RE
  | opt : RE → Bool → RE
  | grp : Nat → RE → RE

/-- Candidates of a bounded repetition `a{lo,hi}` given the candidate
function of the body, structurally recursive on `hi` (every quantifier of
the embedded patterns has a non-nullable body, so bounding a `*` by the
input length is exact). -/
def repCands (m : List Char → List (List Char × List Char × List (Nat × List Char)))
    (greedy : Bool) :
    Nat → Nat → List Char → List (List Char × List Char × List (Nat × List Char))
  | lo, 0, s => if lo = 0 then [([], s, [])] else []
  | lo, hi + 1, s =>
    let more := (m s).flatMap fun (ca, sa, ga) =>
      (repCands m greedy (lo - 1) hi sa).map fun (cb, sb, gb) =>
        (ca ++ cb, sb, ga ++ gb)
    if lo = 0 then
      if greedy then more ++ [([], s, [])] else ([], s, []) :: more
    else more

/-- Candidate matches of a regex against the head of the input: each candidate
is `(consumed characters, remaining input, captured groups)`, listed in the
backtracking preference order of Python `re` (greedy quantifiers try the
longest consumption first, lazy ones the shortest; `alt` tries the left arm
first). -/
def reCands : RE → List Char → List (List Char × List Char × List (Nat × List Char))
  | RE.eps, s => [([], s, [])]
  | RE.lit c, s =>
    match s with
    | [] => []
    | c' :: rest => if c' = c then [([c], rest, [])] else []
  | RE.cls p, s =>
    match s with
    | [] => []
    | c' :: rest => if p c' then [([c'], rest, [])] else []
  | RE.seq a b, s =>
    (reCands a s).flatMap fun (ca, sa, ga) =>
      (reCands b sa).map fun (cb, sb, gb) => (ca ++ cb, sb, ga ++ gb)
  | RE.alt a b, s => reCands a s ++ reCands b s
  | RE.rep a lo hi greedy, s => repCands (reCands a) greedy lo hi s
  | RE.star a greedy, s => repCands (reCands a) greedy 0 s.length s
  | RE.opt a greedy, s =>
    let withA := reCands a s
    if greedy then withA ++ [([], s, [])] else ([], s, []) :: withA
  | RE.grp n a, s =>
    (reCands a s).map fun (ca, sa, ga) => (ca, sa, ga ++ [(n, ca)])

/-- First (most preferred) match of the regex at the very start of the input. -/
def reMatchHead (r : RE) (s : List Char) :
    Option (List Char × List Char × List (Nat × List Char)) :=
  (reCands r s).head?

/-- The embedding of `re.search`: try each start position from the left, and
at the first position where the pattern matches return that match's captured
groups (Python's leftmost-then-preference-order semantics). -/
def reSearch (r : RE) : List Char → Option (List (Nat × List Char))
  | [] =>
    match reMatchHead r [] with
    | some (_, _, g) => some g
    | none => none
  | c :: rest =>
    match reMatchHead r (c :: rest) with
    | some (_, _, g) => some g
    | none => reSearch r rest

/-- Value of capture group `n` in a match result (Python `m.group(n)`;
for the embedded patterns each group captures at most once). -/
def groupOf (g : List (Nat × List Char)) (n : Nat) : List Char :=
  match g.find? (fun p => p.1 == n) with
  | some p => p.2
  | none => []

/-- Sequence of several regexes, for readability of the patterns below. -/
def reCat : List RE → RE
  | [] => RE.eps
  | [r] => r
  | r :: rs => RE.seq r (reCat rs)

/-- Literal string as a regex. -/
def reStr (s : String) : RE := reCat (s.toList.map RE.lit)

/-- Ordered alternation over a list (first alternative preferred). -/
def reAlts : List RE → RE
  | [] => RE.cls (fun _ => false)
  | [r] => r
  | r :: rs => RE.alt r (reAlts rs)

/-- A literal character under `re.IGNORECASE`: ASCII letters match either
case, all other characters match exactly. -/
def reLitCI (c : Char) : RE :=
  if ('a' ≤ c ∧ c ≤ 'z') ∨ ('A' ≤ c ∧ c ≤ 'Z') then
    RE.cls (fun c' => c'.toLower = c.toLower)
  else RE.lit c

/-- Literal string under `re.IGNORECASE`. -/
def reStrCI (s : String) : RE := reCat (s.toList.map reLitCI)

/-- Python's `.` (any character except a newline, no DOTALL flag in use). -/
def reDot : RE := RE.cls (fun c => c ≠ '\n')

/-- Pattern `\s*` (greedy). -/
def reSpaces : RE := RE.star (RE.cls isSpaceB) true

/-- Pattern `\d+` (greedy). -/
def reDigits : RE := RE.seq (RE.cls isDigitB) (RE.star (RE.cls isDigitB) true)

/-- Pattern `(.+?)` — lazy one-or-more of any character, as capture group `n`. -/
def reLazyPlus (n : Nat) : RE :=
  RE.grp n (RE.seq reDot (RE.star reDot false))

/-- Pattern `(?:.*?)` — lazy zero-or-more of any character, not captured. -/
def reLazyStar : RE := RE.star reDot false

/-- Python's `int()` on a digit string. -/
def digitsToNat (cs : List Char) : Nat :=
  cs.foldl (fun acc c => acc * 10 + (c.toNat - '0'.toNat)) 0

/-- Bool substring test (`needle in hay` in Python). -/
def infixB (needle : List Char) : List Char → Bool
  | [] => needle.isEmpty
  | c :: rest => needle.isPrefixOf (c :: rest) || infixB needle (c :: rest).tail

/-- Python `str.lower()` restricted to ASCII (the embedded keyword tables are
ASCII or Chinese, and Chinese characters are unaffected by lowering). -/
def lowerChars (cs : List Char) : List Char := cs.map Char.toLower

/-- Python `str.strip()`: drop whitespace from both ends. -/
def stripChars (cs : List Char) : List Char :=
  ((cs.dropWhile isSpaceB).reverse.dropWhile isSpaceB).reverse

/-! ## Calendar dates

`datetime.now()`, `timedelta(days = k)` and `strftime("%Y-%m-%d")` from
`itinerary_detector.py` are embedded on a plain Gregorian date record; the
time-of-day component never influences any embedded computation. -/

structure Date where
  year : Nat
  month : Nat
  day : Nat
deriving Repr, DecidableEq

/-- Gregorian leap year. -/
def isLeap (y : Nat) : Bool := y % 4 = 0 ∧ (y % 100 ≠ 0 ∨ y % 400 = 0)

/-- Days in a month. -/
def daysInMonth (y m : Nat) : Nat :=
  if m = 2 then (if isLeap y then 29 else 28)
  else if m = 4 ∨ m = 6 ∨ m = 9 ∨ m = 11 then 30
  else 31

/-- The next calendar day. -/
def nextDay (d : Date) : Date :=
  if d.day < daysInMonth d.year d.month then ⟨d.year, d.month, d.day + 1⟩
  else if d.month < 12 then ⟨d.year, d.month + 1, 1⟩
  else ⟨d.year + 1, 1, 1⟩

/-- The previous calendar day. -/
def prevDay (d : Date) : Date :=
  if d.day > 1 then ⟨d.year, d.month, d.day - 1⟩
  else if d.month > 1 then ⟨d.year, d.month - 1, daysInMonth d.year (d.month - 1)⟩
  else ⟨d.year - 1, 12, 31⟩

/-- Embedding of `d + timedelta(days = k)` for a possibly negative `k`. -/
def addDays (d : Date) (k : Int) : Date :=
  if k ≥ 0 then (Nat.rec d (fun _ acc => nextDay acc) k.toNat : Date)
  else (Nat.rec d (fun _ acc => prevDay acc) (-k).toNat : Date)

/-- Zero-pad a numeral to the given width. -/
def padNum (width n : Nat) : String :=
  let s := toString n
  let pad := width - s.length
  String.mk (List.replicate pad '0') ++ s

/-- Embedding of `strftime("%Y-%m-%d")`. -/
def formatDate (d : Date) : String :=
  padNum 4 d.year ++ "-" ++ padNum 2 d.month ++ "-" ++ padNum 2 d.day

/-- Lexicographic comparison of dates, matching `datetime` ordering for the
dates produced by `strptime` (time components all zero). -/
def dateLt (a b : Date) : Bool :=
  a.year < b.year ∨ (a.year = b.year ∧
    (a.month < b.month ∨ (a.month = b.month ∧ a.day < b.day)))

/-! ## Intent-detector patterns

Embeddings of the regular expressions in `itinerary_detector.py` and
`user_info_detector.py`, written constructor-for-construct from the pattern
strings. -/

/-- One date of the explicit range: 4 digits, a separator (dash, slash or 年),
1-2 digits, a separator (dash, slash or 月), 1-2 digits, optional 日. -/
def datePartRE : RE := reCat
  [ RE.rep (RE.cls isDigitB) 4 4 true,
    reAlts [RE.lit '-', RE.lit '/', RE.lit '年'],
    RE.rep (RE.cls isDigitB) 1 2 true,
    reAlts [RE.lit '-', RE.lit '/', RE.lit '月'],
    RE.rep (RE.cls isDigitB) 1 2 true,
    RE.opt (RE.lit '日') true ]

/-- The `date_pattern` of both detectors: two captured date parts joined by
optional whitespace and one of 至, 到 or a dash (searched without `IGNORECASE`). -/
def dateRangeRE : RE := reCat
  [ RE.grp 1 datePartRE, reSpaces,
    reAlts [reStr "至", reStr "到", reStr "-"], reSpaces,
    RE.grp 2 datePartRE ]

/-- The `days_pattern`: `(\d+)\s*(?:天|days|日)` (no `IGNORECASE`). -/
def daysRE : RE := reCat
  [ RE.grp 1 reDigits, reSpaces, reAlts [reStr "天", reStr "days", reStr "日"] ]

/-- The date-string normalisation
`replace('年','-').replace('月','-').replace('日','').replace('/','-')`
(all four are single-character replacements, so filter + map is equivalent). -/
def normDateChars (cs : List Char) : List Char :=
  (cs.filter (fun c => c ≠ '日')).map
    (fun c => if c = '年' ∨ c = '月' ∨ c = '/' then '-' else c)

/-- The three `destination_patterns` of `ItineraryIntentDetector.extract_params`
(searched with `IGNORECASE`). -/
def itineraryDestREs : List RE :=
  [ reCat [ reAlts [reStr "去", reStrCI "to", reStr "前往", reStrCI "visit"],
            reSpaces, reLazyPlus 1, reSpaces,
            reAlts [reStr "旅游", reStr "旅行", reStr "玩", reStr "游玩",
                    reStrCI "travel", reStrCI "trip", reStrCI "tour"] ],
    reCat [ reAlts [reStr "在", reStrCI "at", reStrCI "in"],
            reSpaces, reLazyPlus 1, reSpaces,
            RE.alt (reStr "的") RE.eps,
            reAlts [reStr "行程", reStr "旅行", reStr "旅游",
                    reStrCI "trip", reStrCI "travel", reStrCI "itinerary"] ],
    reCat [ reAlts [reStr "规划", reStrCI "plan", reStr "制定", reStrCI "make",
                    reStr "生成", reStrCI "generate"],
            reSpaces, reLazyPlus 1, reSpaces,
            RE.alt (reStr "的") RE.eps,
            reAlts [reStr "行程", reStr "旅行", reStr "旅游",
                    reStrCI "trip", reStrCI "travel", reStrCI "itinerary"] ] ]

/-- The budget pattern `(?:预算|budget)\s*(\d+)\s*(?:元|块|yuan|rmb|cny)` (`IGNORECASE`). -/
def budgetRE : RE := reCat
  [ reAlts [reStr "预算", reStrCI "budget"], reSpaces, RE.grp 1 reDigits,
    reSpaces,
    reAlts [reStr "元", reStr "块", reStrCI "yuan", reStrCI "rmb", reStrCI "cny"] ]

/-- The `style_keywords` table, in dict insertion order. -/
def styleKeywords : List (String × List String) :=
  [ ("文化", ["文化", "历史", "古迹", "博物馆", "culture", "history", "museum"]),
    ("美食", ["美食", "吃", "餐厅", "food", "cuisine", "eat", "restaurant"]),
    ("购物", ["购物", "买", "商场", "shopping", "shop", "mall"]),
    ("自然", ["自然", "风景", "景色", "公园", "nature", "scenery", "park"]),
    ("冒险", ["冒险", "刺激", "极限", "adventure", "exciting", "extreme"]),
    ("放松", ["放松", "休闲", "spa", "relax", "leisure"]),
    ("家庭", ["家庭", "孩子", "亲子", "family", "kid", "child"]) ]

/-- The `diet_keywords` table, in dict insertion order. -/
def dietKeywords : List (String × List String) :=
  [ ("素食", ["素食", "素", "vegetarian", "vegan"]),
    ("无麸质", ["无麸质", "gluten-free"]),
    ("无乳糖", ["无乳糖", "lactose-free"]),
    ("清真", ["清真", "halal"]),
    ("无坚果", ["无坚果", "nut-free", "坚果过敏"]) ]

/-- The style-selection loop: first style one of whose keywords occurs in
`text.lower()`. -/
def findStyle (cs : List Char) : Option String :=
  (styleKeywords.find? fun sk =>
    sk.2.any fun kw => infixB kw.toList (lowerChars cs)).map (·.1)

/-- The dietary-restriction loop: every diet one of whose keywords occurs in
`text.lower()`, in table order. -/
def findDiets (cs : List Char) : List String :=
  (dietKeywords.filter fun dk =>
    dk.2.any fun kw => infixB kw.toList (lowerChars cs)).map (·.1)

/-- First pattern of the list matching the text, returning its groups. -/
def searchFirst (ps : List RE) (cs : List Char) : Option (List (Nat × List Char)) :=
  match ps with
  | [] => none
  | p :: rest =>
    match reSearch p cs with
    | some g => some g
    | none => searchFirst rest cs

/-- The date-extraction portion of `ItineraryIntentDetector.extract_params`:
explicit range first, then a bare day count `N` giving
`[today, today + (N-1) days]`, else the 3-day default `[today, today + 2 days]`.
Returns the `start_date` / `end_date` entries in dict insertion order. -/
def itineraryDateParams (today : Date) (cs : List Char) : List (String × Value) :=
  match reSearch dateRangeRE cs with
  | some g =>
    [ ("start_date", Value.str (String.mk (normDateChars (groupOf g 1)))),
      ("end_date", Value.str (String.mk (normDateChars (groupOf g 2)))) ]
  | none =>
    match reSearch daysRE cs with
    | some g =>
      let days : Nat := digitsToNat (groupOf g 1)
      [ ("start_date", Value.str (formatDate today)),
        ("end_date", Value.str (formatDate (addDays today ((days : Int) - 1)))) ]
    | none =>
      [ ("start_date", Value.str (formatDate today)),
        ("end_date", Value.str (formatDate (addDays today 2))) ]

/-- The `user_preferences` sub-dict of `ItineraryIntentDetector.extract_params`
(budget, then style, then dietary restrictions, each only when found). -/
def itineraryPrefs (cs : List Char) : List (String × Value) :=
  (match reSearch budgetRE cs with
   | some g => [("budget", Value.num (digitsToNat (groupOf g 1)))]
   | none => []) ++
  (match findStyle cs with
   | some st => [("style", Value.str st)]
   | none => []) ++
  (match findDiets cs with
   | [] => []
   | ds => [("diet_restrictions", Value.list (ds.map Value.str))])

/-- Embedding of `ItineraryIntentDetector.extract_params`.  `datetime.now()` is the
explicit `today` argument; the returned association list carries the keys in
the dict's insertion order. -/
def itineraryExtractParams (today : Date) (text : String) : List (String × Value) :=
  let cs := text.toList
  (match searchFirst itineraryDestREs cs with
   | some g => [("destination", Value.str (String.mk (stripChars (groupOf g 1))))]
   | none => []) ++
  itineraryDateParams today cs ++
  [("user_preferences", Value.obj (itineraryPrefs cs))]

/-- The three `itinerary_patterns` of `ItineraryIntentDetector.detect`
(searched with `IGNORECASE`). -/
def itineraryDetectREs : List RE :=
  [ reCat [ reAlts [reStr "帮我", reStrCI "help", reStr "请", reStrCI "please", RE.eps],
            reAlts [reStr "规划", reStrCI "plan", reStr "制定", reStrCI "make",
                    reStr "生成", reStrCI "generate"],
            reSpaces, reLazyStar,
            reAlts [reStr "行程", reStr "旅行", reStr "旅游", reStrCI "trip",
                    reStrCI "travel", reStrCI "itinerary", reStr "计划", reStrCI "plan"] ],
    reCat [ reAlts [reStr "去", reStrCI "to", reStr "前往", reStrCI "visit"],
            reSpaces, reLazyPlus 1, reSpaces,
            reAlts [reStr "旅游", reStr "旅行", reStr "玩", reStr "游玩",
                    reStrCI "travel", reStrCI "trip", reStrCI "tour"],
            reSpaces,
            reAlts [reStr "行程", reStr "计划", reStr "规划",
                    reStrCI "itinerary", reStrCI "plan"] ],
    reCat [ reLazyStar,
            reAlts [reStr "几天", reStrCI "days", reStr "天数", reStrCI "duration"],
            reSpaces, RE.alt (reStr "的") RE.eps, reSpaces,
            reAlts [reStr "行程", reStr "旅行", reStr "旅游", reStrCI "trip",
                    reStrCI "travel", reStrCI "itinerary", reStr "计划", reStrCI "plan"] ] ]

/-- Embedding of `ItineraryIntentDetector.detect`. -/
def itineraryDetect (text : String) : Bool :=
  itineraryDetectREs.any fun p => (reSearch p text.toList).isSome

/-- The three `user_info_patterns` of `UserInfoIntentDetector.detect`
(searched with `IGNORECASE`). -/
def userInfoDetectREs : List RE :=
  [ reCat [ reAlts [reStr "我", reStrCI "I"], reSpaces,
            reAlts [reStr "想", reStrCI "want", reStrCI "would like", reStrCI "plan"],
            reSpaces, reAlts [reStr "去", reStrCI "to", reStrCI "visit"],
            reSpaces, reLazyPlus 1, reSpaces,
            reAlts [reStr "旅游", reStr "旅行", reStr "玩", reStr "游玩",
                    reStrCI "travel", reStrCI "trip", reStrCI "tour"] ],
    reCat [ reAlts [reStr "我", reStrCI "I"], reSpaces,
            reAlts [reStr "的", reStrCI "my", RE.eps], reSpaces,
            reAlts [reStr "旅行", reStr "旅游", reStrCI "travel", reStrCI "trip"],
            reSpaces,
            reAlts [reStr "偏好", reStr "喜好", reStr "风格",
                    reStrCI "preference", reStrCI "style"] ],
    reCat [ reAlts [reStr "更新", reStrCI "update", reStr "修改", reStrCI "change",
                    reStr "设置", reStrCI "set"],
            reSpaces, reAlts [reStr "我", reStrCI "my", RE.eps], reSpaces,
            RE.alt (reStr "的") RE.eps, reSpaces,
            reAlts [reStr "信息", reStr "个人信息", reStr "旅行偏好",
                    reStrCI "information", reStrCI "profile", reStrCI "preference"] ] ]

/-- Embedding of `UserInfoIntentDetector.detect`. -/
def userInfoDetect (text : String) : Bool :=
  userInfoDetectREs.any fun p => (reSearch p text.toList).isSome

/-- Embedding of `UserInfoIntentDetector.extract_params` (pure in the text: no clock
access; the explicit date range is extracted when present, with no
day-count or default fallback). -/
def userInfoExtractParams (text : String) : List (String × Value) :=
  let cs := text.toList
  (match reSearch (userInfoDetectREs.headD RE.eps) cs with
   | some g => [("destination", Value.str (String.mk (stripChars (groupOf g 1))))]
   | none => []) ++
  (match reSearch dateRangeRE cs with
   | some g =>
     [ ("start_date", Value.str (String.mk (normDateChars (groupOf g 1)))),
       ("end_date", Value.str (String.mk (normDateChars (groupOf g 2)))) ]
   | none => []) ++
  (match reSearch budgetRE cs with
   | some g => [("budget", Value.num (digitsToNat (groupOf g 1)))]
   | none => []) ++
  (match findStyle cs with
   | some st => [("travel_style", Value.str st)]
   | none => []) ++
  (match findDiets cs with
   | [] => []
   | ds => [("diet_restrictions", Value.list (ds.map Value.str))])

/-! ## JSON serialisation

`json.dumps(result, ensure_ascii=False)` used by
`MemoryManager.add_tool_result` (default separators; only the quote and
backslash escapes matter for the embedded payloads). -/

/-- Escape a string for JSON output. -/
def escapeJson (s : String) : String :=
  String.mk (s.toList.flatMap fun c =>
    if c = '"' then ['\\', '"'] else if c = '\\' then ['\\', '\\'] else [c])

mutual

/-- Embedding of `json.dumps(v, ensure_ascii=False)`. -/
def dumpValue : Value → String
  | Value.str s => "\"" ++ escapeJson s ++ "\""
  | Value.num n => toString n
  | Value.vbool b => if b then "true" else "false"
  | Value.vnull => "null"
  | Value.list xs => "[" ++ dumpList xs ++ "]"
  | Value.obj kvs => "\x7b" ++ dumpObj kvs ++ "\x7d"

/-- Comma-separated list elements. -/
def dumpList : List Value → String
  | [] => ""
  | [x] => dumpValue x
  | x :: y :: xs => dumpValue x ++ ", " ++ dumpList (y :: xs)

/-- Comma-separated object entries. -/
def dumpObj : List (String × Value) → String
  | [] => ""
  | [(k, v)] => "\"" ++ escapeJson k ++ "\": " ++ dumpValue v
  | (k, v) :: e :: kvs =>
    "\"" ++ escapeJson k ++ "\": " ++ dumpValue v ++ ", " ++ dumpObj (e :: kvs)

end

/-! ## Conversation memory (`utils/memory_manager.py`) -/

/-- One message of the conversation memory.  `name` is present exactly on
`tool`-role messages. -/
structure Msg where
  role : String
  content : String
  name : Option String := none
deriving Repr, DecidableEq

/-- Embedding of `MemoryManager.__init__`: the memory starts as the single system message
holding the system prompt. -/
def memInit (systemPrompt : String) : List Msg :=
  [⟨"system", systemPrompt, none⟩]

/-- Embedding of `MemoryManager.add_user_message`. -/
def addUserMessage (m : List Msg) (s : String) : List Msg :=
  m ++ [⟨"user", s, none⟩]

/-- Embedding of `MemoryManager.add_assistant_message`. -/
def addAssistantMessage (m : List Msg) (s : String) : List Msg :=
  m ++ [⟨"assistant", s, none⟩]

/-- Embedding of `MemoryManager.add_tool_result`. -/
def addToolResult (m : List Msg) (toolName : String) (result : Value) : List Msg :=
  m ++ [⟨"tool", dumpValue result, some toolName⟩]

/-- Embedding of `MemoryManager.handle_interrupt`: if the memory is nonempty and its last
message has role `assistant`, overwrite that message's content with
`heard ++ "..."`; then append the system interruption marker. -/
def memHandleInterrupt (m : List Msg) (heard : String) : List Msg :=
  let m1 :=
    match m.getLast? with
    | some last =>
      if last.role = "assistant" then
        m.dropLast ++ [{ last with content := heard ++ "..." }]
      else m
    | none => m
  m1 ++ [⟨"system", "[用户打断了对话]", none⟩]

/-- The operations a client can apply to a live `MemoryManager`. -/
inductive MemOp where
  | user : String → MemOp
  | assistant : String → MemOp
  | tool : String → Value → MemOp
  | interrupt : String → MemOp

/-- Apply one memory operation. -/
def applyMemOp (m : List Msg) : MemOp → List Msg
  | MemOp.user s => addUserMessage m s
  | MemOp.assistant s => addAssistantMessage m s
  | MemOp.tool n v => addToolResult m n v
  | MemOp.interrupt s => memHandleInterrupt m s

/-- Run a sequence of memory operations from a freshly constructed manager. -/
def runMemOps (systemPrompt : String) (ops : List MemOp) : List Msg :=
  ops.foldl applyMemOp (memInit systemPrompt)

/-! ## Tool registry and tool caller (`utils/tool_registry.py`,
`utils/tool_caller.py`)

External tool bodies perform network and disk I/O, so they are an explicit
environment `ToolEnv`; a Python exception escaping a tool body is the
`ToolOutcome.exc` case. -/

/-- Result of running one registered tool body. -/
inductive ToolOutcome where
  | ok : Value → ToolOutcome
  | exc : String → ToolOutcome

/-- Behaviour of the registered tool implementations. -/
def ToolEnv : Type := String → Value → ToolOutcome

/-- The keys of `ToolRegistry._tool_functions`, in dict order. -/
def registeredToolNames : List String :=
  [ "get_current_temperature", "get_temperature_date", "get_traffic_status",
    "get_route_traffic", "collect_user_info", "generate_travel_itinerary",
    "generate_packing_list", "find_nearby_facilities", "get_scenic_spot_info",
    "analyze_travel_photo", "generate_social_media_post" ]

/-- Embedding of `ToolRegistry.get_tool_function`: `self._tool_functions.get(name)`. -/
def getToolFunction (env : ToolEnv) (name : String) : Option (Value → ToolOutcome) :=
  if registeredToolNames.contains name then some (env name) else none

/-- Embedding of `ToolCaller.call_tool`: look the tool up, invoke it, and convert an
unknown name or a raised exception into a structured error object; the
function is total, so nothing ever propagates to the caller. -/
def callTool (env : ToolEnv) (name : String) (args : Value) : Value :=
  match getToolFunction env name with
  | some f =>
    match f args with
    | ToolOutcome.ok v => v
    | ToolOutcome.exc e => Value.obj [("error", Value.str ("工具调用失败: " ++ e))]
  | none => Value.obj [("error", Value.str ("未知工具: " ++ name))]

/-- The bookkeeping fields of `ToolCaller`. -/
structure ToolCallerState where
  toolCallCount : Nat
  lastToolName : Option String
  lastToolArgs : Option Value
  lastToolCallTime : Option String

/-- The `ToolCaller.__init__` bookkeeping. -/
def toolCallerInit : ToolCallerState := ⟨0, none, none, none⟩

/-- Embedding of `ToolCaller.increment_call_count`. -/
def incrementCallCount (s : ToolCallerState) : ToolCallerState :=
  { s with toolCallCount := s.toolCallCount + 1 }

/-- Embedding of `ToolCaller.set_last_call_info`. -/
def setLastCallInfo (s : ToolCallerState) (name : String) (args : Value)
    (time : String) : ToolCallerState :=
  { s with lastToolName := some name, lastToolArgs := some args,
           lastToolCallTime := some time }

/-- The invocation sequence every capability handler performs
(`increment_call_count`, `set_last_call_info`, `call_tool`): `recordedArgs`
is what the handler passes to `set_last_call_info` (the image handler records
a placeholder there, the others record the call arguments themselves). -/
def handlerInvokeTool (env : ToolEnv) (s : ToolCallerState) (name : String)
    (args recordedArgs : Value) (time : String) : Value × ToolCallerState :=
  let s1 := incrementCallCount s
  let s2 := setLastCallInfo s1 name recordedArgs time
  (callTool env name args, s2)

/-! ## Image-analysis handler (`handlers/image_analysis_handler.py`) -/

/-- The placeholder recorded instead of the raw image payload. -/
def imagePlaceholder : String := "[图片数据]"

/-- The social-media cue test on the accompanying text. -/
def isSocialMediaText (text : String) : Bool :=
  infixB "朋友圈".toList text.toList || infixB "微信".toList text.toList ||
  infixB "微博".toList text.toList || infixB "社交".toList text.toList

mutual

/-- Occurrence of `p` as a substring of some string leaf of the value (the
check used to state that a raw payload was not retained). -/
def valueHasStr (p : String) : Value → Bool
  | Value.str s => infixB p.toList s.toList
  | Value.num _ => false
  | Value.vbool _ => false
  | Value.vnull => false
  | Value.list xs => listHasStr p xs
  | Value.obj kvs => objHasStr p kvs

/-- Occurrence of `p` in some element of a list value. -/
def listHasStr (p : String) : List Value → Bool
  | [] => false
  | x :: xs => valueHasStr p x || listHasStr p xs

/-- Occurrence of `p` in some entry value of an object. -/
def objHasStr (p : String) : List (String × Value) → Bool
  | [] => false
  | kv :: kvs => valueHasStr p kv.2 || objHasStr p kvs

end

/-- Embedding of `ImageAnalysisHandler.handle`, as a transformer of the tool-caller
bookkeeping and the conversation memory.  `tripInfo` stands for
`user_manager.get_user_trip_info(...) or {}`, `now1`/`now2` for the two
`datetime.now().strftime(...)` reads, and the trailing LLM streaming step
(which touches neither piece of state) is omitted.  A `None` or empty
`image_data` returns early with an apology, leaving both states untouched. -/
def imageAnalysisHandle (env : ToolEnv) (tripInfo : Value) (now1 now2 : String)
    (text : String) (imageData : Option String) (tc : ToolCallerState)
    (mem : List Msg) : ToolCallerState × List Msg :=
  match imageData with
  | none => (tc, mem)
  | some img =>
    if img = "" then (tc, mem)
    else
      let isSocial := isSocialMediaText text
      let tc1 := incrementCallCount tc
      let tc2 := setLastCallInfo tc1 "analyze_travel_photo"
        (Value.obj [("image_data", Value.str imagePlaceholder)]) now1
      let photoResult := callTool env "analyze_travel_photo"
        (Value.obj [("image_data", Value.str img)])
      let mem1 := addToolResult mem "analyze_travel_photo" photoResult
      if isSocial then
        let socialArgs := Value.obj
          [("trip_info", tripInfo), ("photos_analysis", Value.list [photoResult])]
        let tc3 := incrementCallCount tc2
        let tc4 := setLastCallInfo tc3 "generate_social_media_post" socialArgs now2
        let socialResult := callTool env "generate_social_media_post" socialArgs
        let mem2 := addToolResult mem1 "generate_social_media_post" socialResult
        (tc4, mem2)
      else (tc2, mem1)

/-! ## TravelAgent interruption (`travel_agent.py`) -/

/-- The TravelAgent state relevant to interruption handling. -/
structure TAState where
  memory : List Msg
  interruptHandled : Bool
  interruptMethod : String

/-- The `else` branch of `TravelAgent.handle_interrupt`: append the partial
utterance when nonempty, then the `[Interrupted by user]` marker with the
role chosen by `interrupt_method`. -/
def taInterruptElse (s : TAState) (heard : String) : TAState :=
  let memA :=
    if heard ≠ "" then s.memory ++ [⟨"assistant", heard ++ "...", none⟩]
    else s.memory
  { s with memory := memA ++
      [⟨if s.interruptMethod = "system" then "system" else "user",
        "[Interrupted by user]", none⟩] }

/-- Embedding of `TravelAgent.handle_interrupt`: a no-op once `_interrupt_handled` is set;
otherwise it sets the flag, and either rewrites the trailing assistant
message's content to `heard ++ "..."` or splices in the interruption
marker. -/
def taHandleInterrupt (s : TAState) (heard : String) : TAState :=
  if s.interruptHandled then s
  else
    let s1 := { s with interruptHandled := true }
    match s1.memory.getLast? with
    | some last =>
      if last.role = "assistant" then
        { s1 with memory :=
            s1.memory.dropLast ++ [{ last with content := heard ++ "..." }] }
      else taInterruptElse s1 heard
    | none => taInterruptElse s1 heard

/-- Embedding of `TravelAgent.reset_interrupt`. -/
def taResetInterrupt (s : TAState) : TAState :=
  { s with interruptHandled := false }

/-! ## Concurrent tool fan-out (`TravelAgent._execute_tools_concurrently`)

Each requested tool call is submitted to a thread pool of at most
`maxConcurrentTools` workers; the per-future behaviour (what
`execute_single_tool` eventually returns, whether it raised before its `try`
block — e.g. in `json.loads` — or whether it failed to finish within
`toolCallTimeoutSeconds` of its retrieval) is abstracted as a
`FutureOutcome` per submitted future, in submission order.  The collection
loop itself is deterministic and is embedded exactly: it walks the requested
calls in order and, for each, takes the first submitted future whose
tool-call dict compares equal. -/

/-- One entry of the `tool_calls` list returned by the LLM:
`{id, function: {name, arguments}}`. -/
structure ToolCall where
  id : String
  fname : String
  fargs : String
deriving Repr, DecidableEq

/-- The worker-pool bound: `max_workers = min(len(tool_calls), 3)`. -/
def maxConcurrentTools (n : Nat) : Nat := min n 3

/-- The per-retrieval timeout passed to `future.result`. -/
def toolCallTimeoutSeconds : Nat := 30

/-- Terminal behaviour of one submitted future. -/
inductive FutureOutcome where
  | completed : Bool → String → FutureOutcome
  | raised : String → FutureOutcome
  | timedOut : FutureOutcome
deriving Repr, DecidableEq

/-- One element of the `tool_results` list
(`{success, content, tool_name}`). -/
structure ToolResultEntry where
  success : Bool
  content : String
  toolName : String
deriving Repr, DecidableEq

/-- The body of `execute_single_tool` around the tool-manager call: a raised
tool exception is caught and converted into that call's error content. -/
def executeSingleTool (exec : String → String → Except String String)
    (c : ToolCall) : Bool × String :=
  match exec c.fname c.fargs with
  | Except.ok r => (true, r)
  | Except.error e => (false, "工具 " ++ c.fname ++ " 执行失败: " ++ e)

/-- Convert the retrieved future outcome into the appended result entry,
exactly as the `try/except` around `future.result(timeout=30)` does. -/
def renderOutcome (c : ToolCall) : FutureOutcome → ToolResultEntry
  | FutureOutcome.completed ok content => ⟨ok, content, c.fname⟩
  | FutureOutcome.raised msg => ⟨false, "工具 " ++ c.fname ++ " 执行异常: " ++ msg, c.fname⟩
  | FutureOutcome.timedOut => ⟨false, "工具 " ++ c.fname ++ " 执行超时", c.fname⟩

/-- Index of the first submitted future whose tool-call dict compares equal
to `c` (the inner `for future, original_tool_call in future_to_tool.items()`
scan; dict iteration order is insertion order, i.e. request order). -/
def firstMatchIdx : List ToolCall → ToolCall → Option Nat
  | [], _ => none
  | c' :: rest, c =>
    if c' == c then some 0 else (firstMatchIdx rest c).map (· + 1)

/-- The result-collection loop of `_execute_tools_concurrently`: for each
requested call (in request order), take the first submitted future whose
tool-call dict compares equal and render that future's outcome.  `outcomes`
lists the submitted futures' behaviours in submission order (the
`none`/`getD` fallback is unreachable: every requested call matches its own
future). -/
def renderAt (calls : List ToolCall) (outcomes : List FutureOutcome)
    (c : ToolCall) : ToolResultEntry :=
  match firstMatchIdx calls c with
  | some j => renderOutcome c (outcomes.getD j FutureOutcome.timedOut)
  | none => renderOutcome c FutureOutcome.timedOut

/-- The whole collection loop: one appended entry per requested call, in
request order. -/
def collectResults (calls : List ToolCall) (outcomes : List FutureOutcome) :
    List ToolResultEntry :=
  calls.map (renderAt calls outcomes)

/-- One tool-role message appended by `_deepseek_function_call` after the
fan-out (`{"role": "tool", "content": …, "tool_call_id": …}`). -/
structure DSToolMsg where
  role : String
  content : String
  toolCallId : String
deriving Repr, DecidableEq

/-- The message-append loop
`for tool_call, result in zip(tool_calls, tool_results): …`. -/
def appendToolMessages (calls : List ToolCall) (results : List ToolResultEntry) :
    List DSToolMsg :=
  (calls.zip results).map fun p => ⟨"tool", p.2.content, p.1.id⟩

/-! ## User profile store (`tools/user_profile.py`)

The store itself is `user_profiles`, a dict from user id to profile;
`datetime.now().isoformat()` is the explicit `nowIso` argument and the
optional file persistence (`_save_profiles`) is I/O outside the logical
state.  A Python `TypeError` that no handler catches (subscripting a
non-dict `travel_dates`, `strptime` on a non-string) is the `Except.error`
case. -/

/-- A feedback record as `analyze_preferences` reads it: `fb.get("rating", 0)`
is `rating` (a missing rating is the default `0`), `"liked_items" in fb`
is `likedItems.isSome`, and the remaining entries are never consulted. -/
structure Feedback where
  rating : Int
  likedItems : Option (List Value)
  rest : List (String × Value)

/-- One user profile record. -/
structure Profile where
  basicInfo : List (String × Value)
  travelHistory : List Value
  feedback : List Feedback
  createdAt : String
  updatedAt : String

/-- The profile store: `self.user_profiles`. -/
abbrev Store := List (String × Profile)

/-- Embedding of `user_id in self.user_profiles`. -/
def storeHas (st : Store) (userId : String) : Bool :=
  st.any fun p => p.1 == userId

/-- Embedding of `self.user_profiles.get(user_id)`. -/
def storeGet (st : Store) (userId : String) : Option Profile :=
  match st.find? (fun p => p.1 == userId) with
  | some p => some p.2
  | none => none

/-- Point update of one user's profile. -/
def storeSet (st : Store) (userId : String) (f : Profile → Profile) : Store :=
  st.map fun p => if p.1 == userId then (p.1, f p.2) else p

/-- The uncaught Python exceptions the profile store can raise. -/
inductive PyError where
  | typeError : PyError
deriving Repr, DecidableEq

/-- Split a character list on dashes (the `"-"` separators of the
`%Y-%m-%d` format). -/
def splitDashes : List Char → List Char → List (List Char)
  | [], acc => [acc.reverse]
  | c :: rest, acc =>
    if c = '-' then acc.reverse :: splitDashes rest []
    else splitDashes rest (c :: acc)

/-- Embedding of `datetime.strptime(s, "%Y-%m-%d")`, as a calendar date (`none` models the
`ValueError` on a malformed string or an out-of-range component; `strptime`
accepts 1-4 year digits and 1-2 month/day digits). -/
def strptimeYMD (s : String) : Option Date :=
  match splitDashes s.toList [] with
  | [ys, ms, ds] =>
    if ys ≠ [] ∧ ys.length ≤ 4 ∧ ys.all isDigitB ∧
       ms ≠ [] ∧ ms.length ≤ 2 ∧ ms.all isDigitB ∧
       ds ≠ [] ∧ ds.length ≤ 2 ∧ ds.all isDigitB then
      let y := digitsToNat ys
      let m := digitsToNat ms
      let d := digitsToNat ds
      if 1 ≤ m ∧ m ≤ 12 ∧ 1 ≤ d ∧ d ≤ daysInMonth y m then some ⟨y, m, d⟩
      else none
    else none
  | _ => none

/-- The `required_fields` list of `collect_user_info`. -/
def requiredFields : List String :=
  [ "travel_dates", "destination", "dietary_restrictions", "preferences",
    "budget", "travel_style" ]

/-- A `{"status": "error", "message": …}` envelope. -/
def errResult (msg : String) : Value :=
  Value.obj [("status", Value.str "error"), ("message", Value.str msg)]

/-- A `{"status": "success", "message": …}` envelope. -/
def okResult (msg : String) : Value :=
  Value.obj [("status", Value.str "success"), ("message", Value.str msg)]

/-- Python `dict.update`: existing keys are overwritten in place, new keys
appended in the update's order. -/
def dictUpdate (base upd : List (String × Value)) : List (String × Value) :=
  upd.foldl (fun acc kv =>
    if alistHas acc kv.1 then
      acc.map (fun kv' => if kv'.1 == kv.1 then (kv'.1, kv.2) else kv')
    else acc ++ [kv]) base

/-- The date-range validation step of `collect_user_info` on the
`travel_dates` entry: `none` means validation passed, `some r` means the
error envelope `r` is returned, and `Except.error` a `TypeError` that Python
would not catch (the `except` clause only catches `KeyError`/`ValueError`). -/
def validateTravelDates (td : Value) : Except PyError (Option Value) :=
  match td with
  | Value.obj kvs =>
    match alistGet kvs "start_date", alistGet kvs "end_date" with
    | some (Value.str ss), some (Value.str es) =>
      (match strptimeYMD ss, strptimeYMD es with
       | some dS, some dE =>
         if dateLt dE dS then Except.ok (some (errResult "结束日期不能早于开始日期"))
         else Except.ok none
       | _, _ => Except.ok (some (errResult "旅行日期格式错误，请使用YYYY-MM-DD格式")))
    | some (Value.str _), some _ => Except.error PyError.typeError
    | some (Value.str _), none =>
      Except.ok (some (errResult "旅行日期格式错误，请使用YYYY-MM-DD格式"))
    | some _, _ => Except.error PyError.typeError
    | none, _ => Except.ok (some (errResult "旅行日期格式错误，请使用YYYY-MM-DD格式"))
  | _ => Except.error PyError.typeError

/-- Embedding of `UserProfileManager.collect_user_info`.  Returns the result envelope and
the new store; the store is only touched after every validation step has
passed. -/
def collectUserInfo (nowIso : String) (st : Store) (userId : String)
    (info : List (String × Value)) : Except PyError (Value × Store) :=
  let missing := requiredFields.filter fun f => ¬ alistHas info f
  if missing ≠ [] then
    Except.ok (errResult ("缺少必填字段: " ++ String.intercalate ", " missing), st)
  else
    let afterValidation : Except PyError (Option Value) :=
      match alistGet info "travel_dates" with
      | some td => validateTravelDates td
      | none => Except.ok none
    match afterValidation with
    | Except.error e => Except.error e
    | Except.ok (some r) => Except.ok (r, st)
    | Except.ok none =>
      let st1 :=
        if storeHas st userId then st
        else st ++ [(userId, ⟨[], [], [], nowIso, nowIso⟩)]
      let st2 := storeSet st1 userId fun p =>
        { p with basicInfo := dictUpdate p.basicInfo info, updatedAt := nowIso }
      Except.ok (okResult "用户信息已更新", st2)

/-- The liked-items accumulation loop of `analyze_preferences`:
`for fb in feedback: if fb.get("rating", 0) >= 4 and "liked_items" in fb:
liked_items.extend(fb["liked_items"])`. -/
def likedItemsLoop (feedback : List Feedback) : List Value :=
  feedback.foldl (fun acc fb =>
    if fb.rating ≥ 4 then
      match fb.likedItems with
      | some xs => acc ++ xs
      | none => acc
    else acc) []

/-- Embedding of `trip.get("destination", "")` over the travel history. -/
def historyDestinations (history : List Value) : List Value :=
  history.map fun t =>
    match t with
    | Value.obj kvs => (alistGet kvs "destination").getD (Value.str "")
    | _ => Value.str ""

/-- Embedding of `d.get(k, dflt)` on a value known to be consulted as a dict. -/
def vGetD (v : Value) (k : String) (dflt : Value) : Value :=
  match v with
  | Value.obj kvs => (alistGet kvs k).getD dflt
  | _ => dflt

/-- Embedding of `UserProfileManager.analyze_preferences`: a pure read — the method body
contains no assignment to the store, so the returned store is the input
store unchanged. -/
def analyzePreferences (st : Store) (userId : String) : Value × Store :=
  match storeGet st userId with
  | none => (errResult "用户不存在", st)
  | some p =>
    let preferences := (alistGet p.basicInfo "preferences").getD (Value.obj [])
    let travelStyle := (alistGet p.basicInfo "travel_style").getD (Value.str "")
    let dietaryRestrictions :=
      (alistGet p.basicInfo "dietary_restrictions").getD (Value.list [])
    let destinations := historyDestinations p.travelHistory
    let likedItems := likedItemsLoop p.feedback
    let analysis := Value.obj
      [ ("preferred_destinations", Value.list destinations),
        ("travel_style", travelStyle),
        ("dietary_restrictions", dietaryRestrictions),
        ("activity_preferences", vGetD preferences "activity" (Value.list [])),
        ("food_preferences", vGetD preferences "food" (Value.list [])),
        ("accommodation_preferences", vGetD preferences "accommodation" (Value.list [])),
        ("liked_items", Value.list likedItems) ]
    (Value.obj
      [ ("status", Value.str "success"),
        ("message", Value.str "偏好分析完成"),
        ("analysis", analysis) ], st)

/-- The `last_tool_args` occurrence check lifted to the optional field. -/
def optHasStr (p : String) : Option Value → Bool
  | some v => valueHasStr p v
  | none => false

/-! ## Theorems -/

/-- C1: invoking the tool caller with an unregistered tool name returns the
structured error object `{error: "未知工具: <name>"}` (the code's Chinese
rendering of "unknown tool: <name>"), never an exception — `callTool` is a
total function into result values — and the handler invocation sequence
still increments the call counter by one and records the call metadata. -/
theorem tool_caller_unknown_tool (env : ToolEnv) (s : ToolCallerState)
    (name : String) (args recordedArgs : Value) (time : String)
    (h : registeredToolNames.contains name = false) :
    handlerInvokeTool env s name args recordedArgs time =
      (Value.obj [("error", Value.str ("未知工具: " ++ name))],
       ⟨s.toolCallCount + 1, some name, some recordedArgs, some time⟩) := by
  have h' : ¬ (name ∈ registeredToolNames) := by simpa using h
  simp [handlerInvokeTool, callTool, getToolFunction, h', incrementCallCount,
    setLastCallInfo]

/-- Witness for C1 at the unregistered name `"does_not_exist"`. -/
theorem tool_caller_unknown_tool_witness :
    registeredToolNames.contains "does_not_exist" = false ∧
    handlerInvokeTool (fun _ _ => ToolOutcome.ok Value.vnull) toolCallerInit
        "does_not_exist" (Value.obj []) (Value.obj []) "2024-01-01 00:00:00" =
      (Value.obj [("error", Value.str "未知工具: does_not_exist")],
       ⟨1, some "does_not_exist", some (Value.obj []), some "2024-01-01 00:00:00"⟩) :=
  ⟨by decide, by
    have h := tool_caller_unknown_tool (fun _ _ => ToolOutcome.ok Value.vnull)
      toolCallerInit "does_not_exist" (Value.obj []) (Value.obj [])
      "2024-01-01 00:00:00" (by decide)
    simpa [toolCallerInit] using h⟩

/-- C5: when the most recent message is an assistant message, the memory
manager's `handle_interrupt` replaces its content with the partial text plus
the `"..."` truncation marker and appends the system interruption marker
`"[用户打断了对话]"` (the code's Chinese rendering of
`"[conversation interrupted by user]"`); a second immediate call is
well-defined — it rewrites nothing (the last message is now the system
marker) and just appends another marker. -/
theorem mem_interrupt_truncates_then_marks (m : List Msg) (lastMsg : Msg)
    (partialText p2 : String) (hl : m.getLast? = some lastMsg)
    (hr : lastMsg.role = "assistant") :
    memHandleInterrupt m partialText =
      m.dropLast ++ [{ lastMsg with content := partialText ++ "..." },
        ⟨"system", "[用户打断了对话]", none⟩] ∧
    memHandleInterrupt (memHandleInterrupt m partialText) p2 =
      memHandleInterrupt m partialText ++ [⟨"system", "[用户打断了对话]", none⟩] := by
  have hfirst : memHandleInterrupt m partialText =
      m.dropLast ++ [{ lastMsg with content := partialText ++ "..." },
        ⟨"system", "[用户打断了对话]", none⟩] := by
    simp [memHandleInterrupt, hl, hr]
  refine ⟨hfirst, ?_⟩
  have hlast2 : (memHandleInterrupt m partialText).getLast? =
      some ⟨"system", "[用户打断了对话]", none⟩ := by
    rw [hfirst]
    rw [List.getLast?_append]
    simp
  simp [memHandleInterrupt, hlast2]

/-- Witness for C5 on a concrete two-message memory with a trailing
assistant message. -/
theorem mem_interrupt_truncates_then_marks_witness :
    memHandleInterrupt [⟨"system", "sys", none⟩, ⟨"assistant", "full answer", none⟩]
        "partial" =
      [⟨"system", "sys", none⟩, ⟨"assistant", "partial...", none⟩,
       ⟨"system", "[用户打断了对话]", none⟩] ∧
    memHandleInterrupt (memHandleInterrupt
        [⟨"system", "sys", none⟩, ⟨"assistant", "full answer", none⟩] "partial") "x" =
      memHandleInterrupt [⟨"system", "sys", none⟩, ⟨"assistant", "full answer", none⟩]
          "partial" ++ [⟨"system", "[用户打断了对话]", none⟩] := by
  have h := mem_interrupt_truncates_then_marks
    [⟨"system", "sys", none⟩, ⟨"assistant", "full answer", none⟩]
    ⟨"assistant", "full answer", none⟩ "partial" "x" (by rfl) (by rfl)
  exact ⟨by rw [h.1]; rfl, h.2⟩

/-- C10: the TravelAgent's `handle_interrupt` always leaves the
`_interrupt_handled` flag set, so composing it with any further call (before
a reset) is the same state as a single application — the second call is a
no-op on the whole state, memory included; `reset_interrupt` clears the flag
again. -/
theorem ta_interrupt_idempotent_until_reset (s : TAState) (r r' : String) :
    taHandleInterrupt (taHandleInterrupt s r) r' = taHandleInterrupt s r ∧
    (taHandleInterrupt s r).interruptHandled = true ∧
    (taResetInterrupt (taHandleInterrupt s r)).interruptHandled = false := by
  have hflag : (taHandleInterrupt s r).interruptHandled = true := by
    by_cases hs : s.interruptHandled
    · simp [taHandleInterrupt, hs]
    · simp only [taHandleInterrupt, hs, if_false, Bool.false_eq_true]
      rcases hgl : ({ s with interruptHandled := true } : TAState).memory.getLast? with
        _ | last
      · simp [hgl, taInterruptElse]
      · simp only [hgl]
        by_cases hr2 : last.role = "assistant" <;> simp [hr2, taInterruptElse]
  have hskip : ∀ (t : TAState) (r'' : String), t.interruptHandled = true →
      taHandleInterrupt t r'' = t := by
    intro t r'' ht
    simp [taHandleInterrupt, ht]
  exact ⟨hskip _ r' hflag, hflag, by simp [taResetInterrupt]⟩

/-- The memory manager's interruption handler keeps the head message when the
head is not an assistant message. -/
theorem memHandleInterrupt_head (a : Msg) (t : List Msg) (s : String)
    (ha : a.role ≠ "assistant") :
    (memHandleInterrupt (a :: t) s).head? = some a := by
  unfold memHandleInterrupt
  cases t with
  | nil => simp [ha]
  | cons b t' =>
    cases hgl : (a :: b :: t').getLast? with
    | none => simp at hgl
    | some last =>
      by_cases hr : last.role = "assistant" <;> simp [hr]

/-- Every memory operation keeps a non-assistant head message. -/
theorem applyMemOp_head (m : List Msg) (op : MemOp) (a : Msg)
    (ha : a.role ≠ "assistant") (hm : m.head? = some a) :
    (applyMemOp m op).head? = some a := by
  cases m with
  | nil => simp at hm
  | cons x t =>
    have hx : x = a := by simpa using hm
    subst hx
    cases op with
    | user s => simp [applyMemOp, addUserMessage]
    | assistant s => simp [applyMemOp, addAssistantMessage]
    | tool n v => simp [applyMemOp, addToolResult]
    | interrupt s => exact memHandleInterrupt_head x t s ha

/-- Folding any operation sequence keeps a non-assistant head message. -/
theorem foldMemOps_head (ops : List MemOp) (m : List Msg) (a : Msg)
    (ha : a.role ≠ "assistant") (hm : m.head? = some a) :
    (ops.foldl applyMemOp m).head? = some a := by
  induction ops generalizing m with
  | nil => simpa using hm
  | cons op rest ih =>
    simpa using ih (applyMemOp m op) (applyMemOp_head m op a ha hm)

/-- Each memory operation decomposes as: keep the existing messages (with at
most the last one's content rewritten, roles untouched) and append a suffix. -/
theorem applyMemOp_append_only (m : List Msg) (op : MemOp) :
    ∃ (base suffix : List Msg),
      applyMemOp m op = base ++ suffix ∧
      base.map Msg.role = m.map Msg.role ∧
      base.dropLast = m.dropLast := by
  cases op with
  | user s => exact ⟨m, [⟨"user", s, none⟩], rfl, rfl, rfl⟩
  | assistant s => exact ⟨m, [⟨"assistant", s, none⟩], rfl, rfl, rfl⟩
  | tool n v => exact ⟨m, [⟨"tool", dumpValue v, some n⟩], rfl, rfl, rfl⟩
  | interrupt s =>
    show ∃ (base suffix : List Msg), memHandleInterrupt m s = base ++ suffix ∧ _ ∧ _
    unfold memHandleInterrupt
    cases hgl : m.getLast? with
    | none => exact ⟨m, [⟨"system", "[用户打断了对话]", none⟩], rfl, rfl, rfl⟩
    | some last =>
      by_cases hr : last.role = "assistant"
      · refine ⟨m.dropLast ++ [{ last with content := s ++ "..." }],
          [⟨"system", "[用户打断了对话]", none⟩], by simp [hr], ?_, ?_⟩
        · have hdl : m.dropLast ++ [last] = m :=
            List.dropLast_append_getLast? last hgl
          calc (m.dropLast ++ [{ last with content := s ++ "..." }]).map Msg.role
              = (m.dropLast.map Msg.role) ++ [last.role] := by simp
            _ = (m.dropLast ++ [last]).map Msg.role := by simp
            _ = m.map Msg.role := by rw [hdl]
        · simp
      · exact ⟨m, [⟨"system", "[用户打断了对话]", none⟩], by simp [hr], rfl, rfl⟩

/-- C6: from construction onward, whatever sequence of memory operations is
applied, the head of the memory is still the system message holding the
system prompt installed at construction, and one further operation only ever
appends messages or rewrites the last message's content — the surviving
base keeps every message's role and every non-final message verbatim, so no
message (in particular the head system message) is ever removed. -/
theorem memory_head_system_append_only (p : String) (ops : List MemOp)
    (op : MemOp) :
    (runMemOps p ops).head? = some ⟨"system", p, none⟩ ∧
    (∃ (base suffix : List Msg),
      applyMemOp (runMemOps p ops) op = base ++ suffix ∧
      base.map Msg.role = (runMemOps p ops).map Msg.role ∧
      base.dropLast = (runMemOps p ops).dropLast) ∧
    (runMemOps p ops).length ≤ (applyMemOp (runMemOps p ops) op).length := by
  refine ⟨?_, applyMemOp_append_only _ op, ?_⟩
  · exact foldMemOps_head ops (memInit p) ⟨"system", p, none⟩ (by simp) rfl
  · obtain ⟨base, suffix, heq, hroles, -⟩ := applyMemOp_append_only (runMemOps p ops) op
    have hlen : base.length = (runMemOps p ops).length := by
      have := congrArg List.length hroles
      simpa using this
    rw [heq]
    simp [← hlen]

/-- The liked-items accumulation loop equals filtering the feedback entries
with rating at least 4 and flattening their liked-items lists. -/
theorem likedItemsLoop_spec (fbs : List Feedback) :
    likedItemsLoop fbs =
      (fbs.filter fun fb => decide (4 ≤ fb.rating)).flatMap
        fun fb => fb.likedItems.getD [] := by
  have key : ∀ (l : List Feedback) (acc : List Value),
      l.foldl (fun acc fb =>
        if fb.rating ≥ 4 then
          match fb.likedItems with
          | some xs => acc ++ xs
          | none => acc
        else acc) acc =
      acc ++ (l.filter fun fb => decide (4 ≤ fb.rating)).flatMap
        (fun fb => fb.likedItems.getD []) := by
    intro l
    induction l with
    | nil => intro acc; simp
    | cons fb rest ih =>
      intro acc
      by_cases hr : (4 : Int) ≤ fb.rating
      · cases hli : fb.likedItems with
        | none => simp [ge_iff_le, hr, hli, ih, List.filter_cons]
        | some xs => simp [ge_iff_le, hr, hli, ih, List.filter_cons]
      · simp [ge_iff_le, hr, ih, List.filter_cons]
  simpa [likedItemsLoop] using key fbs []

/-- C9: `analyze_preferences` on an existing user is a derived read — the
store it hands back is the input store, every profile (its travel history
and feedback lists included) untouched — and the `liked_items` field of the
returned analysis is exactly the flattening of the `liked_items` lists of
the feedback entries whose rating is at least 4. -/
theorem analyze_preferences_derived_read (st : Store) (uid : String)
    (p : Profile) (h : storeGet st uid = some p) :
    (analyzePreferences st uid).2 = st ∧
    vGetD (vGetD (analyzePreferences st uid).1 "analysis" (Value.obj []))
        "liked_items" (Value.list []) =
      Value.list ((p.feedback.filter fun fb => decide (4 ≤ fb.rating)).flatMap
        fun fb => fb.likedItems.getD []) := by
  constructor
  · simp [analyzePreferences, h]
  · simp [analyzePreferences, h, vGetD, alistGet, likedItemsLoop_spec]

/-- Witness for C9 on a store with one user holding three feedback records
(ratings 5, 3 and 4, the last without a liked-items list). -/
theorem analyze_preferences_derived_read_witness :
    (analyzePreferences
        [("u1", ⟨[], [Value.obj [("destination", Value.str "Kyoto")]],
          [⟨5, some [Value.str "sushi", Value.str "temple"], []⟩,
           ⟨3, some [Value.str "queue"], []⟩,
           ⟨4, none, []⟩], "c", "c"⟩)] "u1").2 =
      [("u1", ⟨[], [Value.obj [("destination", Value.str "Kyoto")]],
        [⟨5, some [Value.str "sushi", Value.str "temple"], []⟩,
         ⟨3, some [Value.str "queue"], []⟩,
         ⟨4, none, []⟩], "c", "c"⟩)] ∧
    vGetD (vGetD (analyzePreferences
        [("u1", ⟨[], [Value.obj [("destination", Value.str "Kyoto")]],
          [⟨5, some [Value.str "sushi", Value.str "temple"], []⟩,
           ⟨3, some [Value.str "queue"], []⟩,
           ⟨4, none, []⟩], "c", "c"⟩)] "u1").1 "analysis" (Value.obj []))
        "liked_items" (Value.list []) =
      Value.list (((([⟨5, some [Value.str "sushi", Value.str "temple"], []⟩,
           ⟨3, some [Value.str "queue"], []⟩,
           ⟨4, none, []⟩] : List Feedback)).filter
          fun fb => decide (4 ≤ fb.rating)).flatMap
        fun fb => fb.likedItems.getD []) :=
  analyze_preferences_derived_read
    [("u1", ⟨[], [Value.obj [("destination", Value.str "Kyoto")]],
      [⟨5, some [Value.str "sushi", Value.str "temple"], []⟩,
       ⟨3, some [Value.str "queue"], []⟩,
       ⟨4, none, []⟩], "c", "c"⟩)] "u1"
    ⟨[], [Value.obj [("destination", Value.str "Kyoto")]],
      [⟨5, some [Value.str "sushi", Value.str "temple"], []⟩,
       ⟨3, some [Value.str "queue"], []⟩,
       ⟨4, none, []⟩], "c", "c"⟩ rfl

/-- C4: `collect_user_info` with every required field present but a
`travel_dates` range whose parsed end date precedes its start date returns
the error envelope citing the chronological order
(`"结束日期不能早于开始日期"`, "the end date cannot be earlier than the
start date"), raises nothing (the run is an `Except.ok`), and hands back the
input store unchanged — the profile is neither created nor mutated. -/
theorem collect_info_rejects_reversed_range (nowIso : String) (st : Store)
    (userId : String) (info td : List (String × Value)) (ss es : String)
    (dS dE : Date)
    (hreq : ∀ f ∈ requiredFields, alistHas info f = true)
    (htd : alistGet info "travel_dates" = some (Value.obj td))
    (hs : alistGet td "start_date" = some (Value.str ss))
    (he : alistGet td "end_date" = some (Value.str es))
    (hps : strptimeYMD ss = some dS)
    (hpe : strptimeYMD es = some dE)
    (hlt : dateLt dE dS = true) :
    collectUserInfo nowIso st userId info =
      Except.ok (errResult "结束日期不能早于开始日期", st) := by
  have hmiss : (requiredFields.filter fun f => !alistHas info f) = [] := by
    rw [List.filter_eq_nil_iff]
    intro f hf
    simp [hreq f hf]
  simp [collectUserInfo, hmiss, htd, validateTravelDates, hs, he, hps, hpe, hlt]

/-- Witness for C4 with `start_date = "2024-05-10"`, `end_date = "2024-05-01"`
and an empty store. -/
theorem collect_info_rejects_reversed_range_witness :
    collectUserInfo "2024-05-01T00:00:00" [] "u1"
        [ ("travel_dates", Value.obj
            [("start_date", Value.str "2024-05-10"),
             ("end_date", Value.str "2024-05-01")]),
          ("destination", Value.str "Paris"),
          ("dietary_restrictions", Value.list []),
          ("preferences", Value.obj []),
          ("budget", Value.str "5000"),
          ("travel_style", Value.str "relaxed") ] =
      Except.ok (errResult "结束日期不能早于开始日期", []) :=
  collect_info_rejects_reversed_range "2024-05-01T00:00:00" [] "u1" _ _
    "2024-05-10" "2024-05-01" ⟨2024, 5, 10⟩ ⟨2024, 5, 1⟩
    (by decide) rfl rfl rfl rfl rfl (by decide)

/-- C7: on the image-analysis path the tool caller is handed a placeholder,
never the raw payload: after the image-bearing `analyze_travel_photo`
invocation the recorded `last_tool_args` is exactly
`{"image_data": "[图片数据]"}`, which cannot contain the raw payload; and on
the chained social-media branch the final recorded arguments hold only the
trip info and the analysis result, so they are payload-free whenever those
are. -/
theorem image_payload_redacted (env : ToolEnv) (tripInfo : Value)
    (now1 now2 text img : String) (tc : ToolCallerState) (mem : List Msg)
    (hne : img ≠ "")
    (hph : infixB img.toList imagePlaceholder.toList = false) :
    (isSocialMediaText text = false →
      (imageAnalysisHandle env tripInfo now1 now2 text (some img) tc mem).1.lastToolArgs
          = some (Value.obj [("image_data", Value.str imagePlaceholder)]) ∧
      optHasStr img
        (imageAnalysisHandle env tripInfo now1 now2 text (some img) tc mem).1.lastToolArgs
          = false) ∧
    (isSocialMediaText text = true →
      valueHasStr img tripInfo = false →
      valueHasStr img (callTool env "analyze_travel_photo"
        (Value.obj [("image_data", Value.str img)])) = false →
      optHasStr img
        (imageAnalysisHandle env tripInfo now1 now2 text (some img) tc mem).1.lastToolArgs
          = false) := by
  have hph' : infixB img.data imagePlaceholder.data = false := hph
  constructor
  · intro hsoc
    constructor
    · simp [imageAnalysisHandle, hne, hsoc, setLastCallInfo, incrementCallCount]
    · simp [imageAnalysisHandle, hne, hsoc, setLastCallInfo, incrementCallCount,
        optHasStr, valueHasStr, objHasStr, hph']
  · intro hsoc htrip hres
    simp [imageAnalysisHandle, hne, hsoc, setLastCallInfo, incrementCallCount,
      optHasStr, valueHasStr, objHasStr, listHasStr, htrip, hres]

/-- Witness for C7 with the payload `"RAWIMAGEBYTES"`, once on a plain
analysis request and once on a social-media request whose analysis result
is payload-free. -/
theorem image_payload_redacted_witness :
    ((imageAnalysisHandle (fun _ _ => ToolOutcome.ok (Value.obj [("scene", Value.str "mountain")]))
        (Value.obj []) "t1" "t2" "分析这张照片" (some "RAWIMAGEBYTES")
        toolCallerInit (memInit "sys")).1.lastToolArgs
      = some (Value.obj [("image_data", Value.str imagePlaceholder)]) ∧
     optHasStr "RAWIMAGEBYTES"
       (imageAnalysisHandle (fun _ _ => ToolOutcome.ok (Value.obj [("scene", Value.str "mountain")]))
         (Value.obj []) "t1" "t2" "分析这张照片" (some "RAWIMAGEBYTES")
         toolCallerInit (memInit "sys")).1.lastToolArgs = false) ∧
    optHasStr "RAWIMAGEBYTES"
      (imageAnalysisHandle (fun _ _ => ToolOutcome.ok (Value.obj [("scene", Value.str "mountain")]))
        (Value.obj []) "t1" "t2" "帮我发朋友圈" (some "RAWIMAGEBYTES")
        toolCallerInit (memInit "sys")).1.lastToolArgs = false :=
  ⟨(image_payload_redacted (fun _ _ => ToolOutcome.ok (Value.obj [("scene", Value.str "mountain")]))
      (Value.obj []) "t1" "t2" "分析这张照片" "RAWIMAGEBYTES"
      toolCallerInit (memInit "sys") (by decide) (by decide)).1 rfl,
   (image_payload_redacted (fun _ _ => ToolOutcome.ok (Value.obj [("scene", Value.str "mountain")]))
      (Value.obj []) "t1" "t2" "帮我发朋友圈" "RAWIMAGEBYTES"
      toolCallerInit (memInit "sys") (by decide) (by decide)).2 rfl rfl rfl⟩

/-- C2 counterexample: with two identical requested tool calls (equal id,
name and argument string), the equality-based future matching hands both
positions the first future's result, so the second result is not the second
call's own execution result — the claim fails as stated when duplicate
tool-call dicts occur. -/
theorem concurrent_order_counterexample :
    ¬ (collectResults
        [⟨"call_1", "get_weather", "\x7b\x7d"⟩, ⟨"call_1", "get_weather", "\x7b\x7d"⟩]
        [FutureOutcome.completed true "A", FutureOutcome.completed true "B"] =
      ([(⟨"call_1", "get_weather", "\x7b\x7d"⟩ : ToolCall),
        ⟨"call_1", "get_weather", "\x7b\x7d"⟩].zip
        [FutureOutcome.completed true "A", FutureOutcome.completed true "B"]).map
        fun p => renderOutcome p.1 p.2) := by
  decide

/-- C2 amended: when the requested tool calls are pairwise distinct (as they
are in practice, since the LLM assigns distinct tool-call ids), the
collected results are exactly the per-call outcomes in the original request
order — the i-th result renders the i-th future's outcome, a timed-out or
raising call contributing only its own error entry — and so the appended
tool-role messages carry the i-th call's id with the i-th outcome's content,
independent of completion order (retrieval blocks per future, so completion
order never enters the collection loop). -/
theorem concurrent_order_request_preserved (calls : List ToolCall)
    (outcomes : List FutureOutcome) (hnd : calls.Nodup)
    (hlen : outcomes.length = calls.length) :
    collectResults calls outcomes =
      (calls.zip outcomes).map (fun p => renderOutcome p.1 p.2) ∧
    appendToolMessages calls (collectResults calls outcomes) =
      (calls.zip outcomes).map
        (fun p => (⟨"tool", (renderOutcome p.1 p.2).content, p.1.id⟩ : DSToolMsg)) := by
  have key : ∀ (cs : List ToolCall) (os : List FutureOutcome), cs.Nodup →
      os.length = cs.length →
      collectResults cs os = (cs.zip os).map (fun p => renderOutcome p.1 p.2) := by
    intro cs
    induction cs with
    | nil => intro os _ _; simp [collectResults]
    | cons c cs' ih =>
      intro os hnd2 hlen2
      cases os with
      | nil => simp at hlen2
      | cons o os' =>
        have hb := List.nodup_cons.mp hnd2
        have hlen' : os'.length = cs'.length := by simpa using hlen2
        have hhead : renderAt (c :: cs') (o :: os') c = renderOutcome c o := by
          simp [renderAt, firstMatchIdx]
        have htail : ∀ x ∈ cs',
            renderAt (c :: cs') (o :: os') x = renderAt cs' os' x := by
          intro x hx
          have hcx : ¬ (c = x) := fun h => hb.1 (h ▸ hx)
          cases hfm : firstMatchIdx cs' x with
          | none => simp [renderAt, firstMatchIdx, hcx, hfm]
          | some j => simp [renderAt, firstMatchIdx, hcx, hfm]
        calc collectResults (c :: cs') (o :: os')
            = renderAt (c :: cs') (o :: os') c ::
                cs'.map (renderAt (c :: cs') (o :: os')) := by
              simp [collectResults]
          _ = renderOutcome c o :: cs'.map (renderAt cs' os') := by
              rw [hhead, List.map_congr_left htail]
          _ = renderOutcome c o :: (cs'.zip os').map (fun p => renderOutcome p.1 p.2) := by
              rw [show cs'.map (renderAt cs' os') = collectResults cs' os' from rfl,
                ih os' hb.2 hlen']
          _ = ((c :: cs').zip (o :: os')).map (fun p => renderOutcome p.1 p.2) := by
              simp
  have key2 : ∀ (cs : List ToolCall) (os : List FutureOutcome),
      appendToolMessages cs ((cs.zip os).map fun p => renderOutcome p.1 p.2) =
        (cs.zip os).map
          (fun p => (⟨"tool", (renderOutcome p.1 p.2).content, p.1.id⟩ : DSToolMsg)) := by
    intro cs
    induction cs with
    | nil => intro os; simp [appendToolMessages]
    | cons c cs' ih =>
      intro os
      cases os with
      | nil => simp [appendToolMessages]
      | cons o os' => simpa [appendToolMessages] using ih os'
  refine ⟨key calls outcomes hnd hlen, ?_⟩
  rw [key calls outcomes hnd hlen]
  exact key2 calls outcomes

/-- Witness for the amended C2 on three distinct calls `[A, B, C]` where B
times out: the collected list is still in request order A, B, C. -/
theorem concurrent_order_request_preserved_witness :
    collectResults
        [⟨"id_a", "get_weather", "wa"⟩, ⟨"id_b", "get_traffic_status", "wb"⟩,
         ⟨"id_c", "get_ip_location", "wc"⟩]
        [FutureOutcome.completed true "sunny", FutureOutcome.timedOut,
         FutureOutcome.completed true "hangzhou"] =
      ([(⟨"id_a", "get_weather", "wa"⟩ : ToolCall),
        ⟨"id_b", "get_traffic_status", "wb"⟩,
        ⟨"id_c", "get_ip_location", "wc"⟩].zip
        [FutureOutcome.completed true "sunny", FutureOutcome.timedOut,
         FutureOutcome.completed true "hangzhou"]).map
        (fun p => renderOutcome p.1 p.2) ∧
    appendToolMessages
        [⟨"id_a", "get_weather", "wa"⟩, ⟨"id_b", "get_traffic_status", "wb"⟩,
         ⟨"id_c", "get_ip_location", "wc"⟩]
        (collectResults
          [⟨"id_a", "get_weather", "wa"⟩, ⟨"id_b", "get_traffic_status", "wb"⟩,
           ⟨"id_c", "get_ip_location", "wc"⟩]
          [FutureOutcome.completed true "sunny", FutureOutcome.timedOut,
           FutureOutcome.completed true "hangzhou"]) =
      ([(⟨"id_a", "get_weather", "wa"⟩ : ToolCall),
        ⟨"id_b", "get_traffic_status", "wb"⟩,
        ⟨"id_c", "get_ip_location", "wc"⟩].zip
        [FutureOutcome.completed true "sunny", FutureOutcome.timedOut,
         FutureOutcome.completed true "hangzhou"]).map
        (fun p => (⟨"tool", (renderOutcome p.1 p.2).content, p.1.id⟩ : DSToolMsg)) :=
  concurrent_order_request_preserved
    [⟨"id_a", "get_weather", "wa"⟩, ⟨"id_b", "get_traffic_status", "wb"⟩,
     ⟨"id_c", "get_ip_location", "wc"⟩]
    [FutureOutcome.completed true "sunny", FutureOutcome.timedOut,
     FutureOutcome.completed true "hangzhou"] (by decide) (by decide)

/-- C3: itinerary date extraction has exactly the three-tier precedence — an
explicit date range (mixed dash/slash/Chinese separators allowed, returned
in normalised dashed form) wins; otherwise a bare day count `N` gives
`[today, today + (N-1) days]`; otherwise the 3-day default
`[today, today + 2 days]` — and on `"去云南玩5天"` with today = 2024-03-01
the extracted range is 2024-03-01 to 2024-03-05; a text carrying both a
range and a day count takes the range. -/
theorem itinerary_date_three_tiers :
    (∀ (today : Date) (text : String),
      (alistGet (itineraryExtractParams today text) "start_date",
       alistGet (itineraryExtractParams today text) "end_date") =
        (match reSearch dateRangeRE text.toList with
         | some g =>
           (some (Value.str (String.mk (normDateChars (groupOf g 1)))),
            some (Value.str (String.mk (normDateChars (groupOf g 2)))))
         | none =>
           match reSearch daysRE text.toList with
           | some g =>
             (some (Value.str (formatDate today)),
              some (Value.str (formatDate
                (addDays today ((digitsToNat (groupOf g 1) : Int) - 1)))))
           | none =>
             (some (Value.str (formatDate today)),
              some (Value.str (formatDate (addDays today 2)))))) ∧
    itineraryExtractParams ⟨2024, 3, 1⟩ "去云南玩5天" =
      [("destination", Value.str "云南"), ("start_date", Value.str "2024-03-01"),
       ("end_date", Value.str "2024-03-05"), ("user_preferences", Value.obj [])] ∧
    itineraryExtractParams ⟨2024, 3, 1⟩ "2024-05-10到2024-05-12玩6天" =
      [("start_date", Value.str "2024-05-10"), ("end_date", Value.str "2024-05-12"),
       ("user_preferences", Value.obj [])] := by
  refine ⟨?_, by rfl, by rfl⟩
  intro today text
  have hsplit : itineraryExtractParams today text =
      (match searchFirst itineraryDestREs text.toList with
       | some g => [("destination", Value.str (String.mk (stripChars (groupOf g 1))))]
       | none => []) ++ itineraryDateParams today text.toList ++
      [("user_preferences", Value.obj (itineraryPrefs text.toList))] := rfl
  rw [hsplit]
  simp only [String.toList]
  rcases hdest : searchFirst itineraryDestREs text.data with _ | g1 <;>
    rcases hr : reSearch dateRangeRE text.data with _ | g
  · rcases hd : reSearch daysRE text.data with _ | g2 <;>
      simp [alistGet, itineraryDateParams, hr, hd, List.find?_append]
  · simp [alistGet, itineraryDateParams, hr, List.find?_append]
  · rcases hd : reSearch daysRE text.data with _ | g2 <;>
      simp [alistGet, itineraryDateParams, hr, hd, List.find?_append]
  · simp [alistGet, itineraryDateParams, hr, List.find?_append]

/-- C8 counterexample: `ItineraryIntentDetector.extract_params` reads the
clock (`datetime.now()`), so the same text yields different parameter maps
on different days — it is not a pure function of the input text. -/
theorem detector_purity_counterexample :
    ¬ (itineraryExtractParams ⟨2024, 3, 1⟩ "玩5天" =
       itineraryExtractParams ⟨2024, 3, 2⟩ "玩5天") := by
  intro h
  have e1 : alistGet (itineraryExtractParams ⟨2024, 3, 1⟩ "玩5天") "start_date" =
      some (Value.str "2024-03-01") := rfl
  have e2 : alistGet (itineraryExtractParams ⟨2024, 3, 2⟩ "玩5天") "start_date" =
      some (Value.str "2024-03-02") := rfl
  rw [h, e2] at e1
  injection e1 with e3
  injection e3 with e4
  exact absurd e4 (by decide)

/-- Drop the two date-valued entries from a parameter map. -/
def eraseDateKeys (kvs : List (String × Value)) : List (String × Value) :=
  kvs.filter fun kv => kv.1 ≠ "start_date" ∧ kv.1 ≠ "end_date"

/-- C8 amended: each detector's `detect` and the user-info `extract_params`
are functions of the text alone (their embeddings take no other input), and
the itinerary `extract_params` is a function of the text and the current
date only, with the date's influence confined to the `start_date` /
`end_date` entries: erasing those two keys yields the same map for any two
dates. -/
theorem detector_date_influence_confined (text : String) (d1 d2 : Date) :
    eraseDateKeys (itineraryExtractParams d1 text) =
      eraseDateKeys (itineraryExtractParams d2 text) := by
  have key : ∀ d : Date, eraseDateKeys (itineraryDateParams d text.toList) = [] := by
    intro d
    show eraseDateKeys (itineraryDateParams d text.data) = []
    rcases h1 : reSearch dateRangeRE text.data with _ | g
    · rcases h2 : reSearch daysRE text.data with _ | g2 <;>
        simp [eraseDateKeys, itineraryDateParams, h1, h2]
    · simp [eraseDateKeys, itineraryDateParams, h1]
  have split : ∀ d : Date, eraseDateKeys (itineraryExtractParams d text) =
      eraseDateKeys
        (match searchFirst itineraryDestREs text.toList with
         | some g => [("destination", Value.str (String.mk (stripChars (groupOf g 1))))]
         | none => []) ++
      eraseDateKeys (itineraryDateParams d text.toList) ++
      eraseDateKeys [("user_preferences", Value.obj (itineraryPrefs text.toList))] := by
    intro d
    show eraseDateKeys
      ((match searchFirst itineraryDestREs text.toList with
        | some g => [("destination", Value.str (String.mk (stripChars (groupOf g 1))))]
        | none => []) ++ itineraryDateParams d text.toList ++
       [("user_preferences", Value.obj (itineraryPrefs text.toList))]) = _
    simp [eraseDateKeys, List.filter_append]
  rw [split d1, split d2, key d1, key d2]

end VTuber
